import Mathlib

/-!
Verification of the honeybee HTTP request engine (cody-greene/honeybee).

The definitions below are a shallow embedding of the core request state
machine and its helpers, translated from the repository sources:
  * `src/src/server.ts` — the promise-based node client (`perform`,
    `expBackoff`, `HeaderMap`, `RedirectError`, `OPT_DEFAULTS`, …);
  * `src/unnamed/part_002` — the older callback client (`retry`/`next`/
    `onRefresh`/`abort`);
  * `src/lib/index.js` — the oldest callback client (`next`/`abort`).
External platform primitives (JSON parsing, WHATWG URL resolution) are kept
as parameters, following the spec's scope declaration.
-/

namespace Honeybee

/-! ## HeaderMap (src/src/server.ts, common section)
`Map` with case-insensitive keys; values are JS strings. -/

/-- `String.prototype.toLowerCase()` (kernel-reducible form of `toLower`). -/
def lowerStr (s : String) : String := String.mk (s.data.map Char.toLower)

/-- SINGLE_HEADERS (src/src/server.ts): duplicates of these are discarded. -/
def SINGLE_HEADERS : List String :=
  ["age", "authorization", "content-length", "content-type", "etag", "expires",
   "from", "host", "if-modified-since", "if-unmodified-since", "last-modified",
   "location", "max-forwards", "proxy-authorization", "referer", "retry-after",
   "server", "user-agent"]

structure HeaderMap where
  entries : List (String × String)
deriving Repr, DecidableEq

namespace HeaderMap

def empty : HeaderMap := ⟨[]⟩

/-- `Map.get` over the underlying entry list (keys are already lowercase). -/
def rawGet (m : HeaderMap) (k : String) : Option String :=
  (m.entries.find? (fun e => e.1 == k)).map (fun e => e.2)

/-- `Map.set` over the underlying entry list: replace in place, else push. -/
def rawSet (m : HeaderMap) (k v : String) : HeaderMap :=
  if (m.entries.find? (fun e => e.1 == k)).isSome then
    ⟨m.entries.map (fun e => if e.1 == k then (k, v) else e)⟩
  else ⟨m.entries ++ [(k, v)]⟩

def get (m : HeaderMap) (k : String) : Option String := m.rawGet (lowerStr k)

def has (m : HeaderMap) (k : String) : Bool := (m.get k).isSome

def set (m : HeaderMap) (k v : String) : HeaderMap := m.rawSet (lowerStr k) v

def delete (m : HeaderMap) (k : String) : HeaderMap :=
  ⟨m.entries.filter (fun e => e.1 != lowerStr k)⟩

/-- Set value only if key is not already set. -/
def attempt (m : HeaderMap) (k v : String) : HeaderMap :=
  if m.has k then m else m.set k v

/-- `append` (src/src/server.ts): SINGLE_HEADERS overwrite; otherwise join with
`"; "` for `cookie` and `", "` for everything else.  Note the source joins
`set-cookie` like any other multi-valued header, despite its doc comment. -/
def append (m : HeaderMap) (k v : String) : HeaderMap :=
  let lk := lowerStr k
  if SINGLE_HEADERS.contains lk then m.rawSet lk v
  else
    match m.rawGet lk with
    | none => m.rawSet lk v
    | some prev =>
      let sep := if lk == "cookie" then "; " else ", "
      m.rawSet lk (prev ++ sep ++ v)

end HeaderMap

/-! ## JS numeric primitives
`Math.floor`, `Math.ceil`, `Math.min`, `Math.max` and `/` over exact
rationals, written so that concrete values reduce in the kernel (the library
division on `ℚ` is behind an irreducible `Rat.inv`, hence `jsDiv`).  Each is
proved equal to the corresponding library operation. -/

/-- `Math.floor` on a rational. -/
def jsFloor (q : ℚ) : ℤ := q.num / q.den

/-- `Math.ceil` on a rational. -/
def jsCeil (q : ℚ) : ℤ := -jsFloor (-q)

/-- `Math.min`. -/
def jsMin (a b : ℚ) : ℚ := if a ≤ b then a else b

/-- `Math.max`. -/
def jsMax (a b : ℚ) : ℚ := if a ≤ b then b else a

/-- Division on `ℚ` (kernel-reducible form). -/
def jsDiv (a b : ℚ) : ℚ :=
  if 0 ≤ b.num then mkRat (a.num * b.den) (a.den * b.num.natAbs)
  else mkRat (-(a.num * b.den)) (a.den * b.num.natAbs)

/-! ## expBackoff (src/src/server.ts)
`Math.random()` values are passed explicitly as `r1` (slot choice) and `r2`
(jitter).  JS numbers are modelled as exact rationals. -/

/-- `Math.ceil(Math.min(high/step, Math.pow(exp, attempts)))`. -/
def backoffSlots (step high exp : ℚ) (attempts : ℕ) : ℤ :=
  jsCeil (jsMin (jsDiv high step) (exp ^ attempts))

/-- `expBackoff(step, high, jitter, attempts, exp)`; the source applies the
default `exp = exp || 2` at entry, and `perform` always passes `2`. -/
def expBackoff (step high jitter : ℚ) (attempts : ℕ) (exp : ℚ) (r1 r2 : ℚ) : ℚ :=
  let slots := backoffSlots step high exp attempts
  let selected : ℤ := 1 + jsFloor ((slots : ℚ) * r1)
  let delay : ℚ := (selected : ℚ) * step + ((jsFloor (r2 * jitter * 2)) : ℚ) - jitter
  jsMax 0 (jsMin delay high)

/-- The largest delay reachable by any slot choice `r1 ∈ [0,1)`. -/
def maxBackoff (step high exp : ℚ) (attempts : ℕ) : ℚ :=
  jsMin ((backoffSlots step high exp attempts : ℚ) * step) high

/-! ## parseInt (JS `parseInt`, radix 10), used on the Retry-After header -/

/-- `parseInt(s)`: skip leading whitespace, optional sign, then a non-empty
run of decimal digits; `none` models `NaN`. -/
def parseIntJS (s : String) : Option Int :=
  let cs := s.data.dropWhile (fun c => c == ' ' || c == '\t' || c == '\n' || c == '\r')
  let signed : Int × List Char :=
    match cs with
    | '-' :: t => (-1, t)
    | '+' :: t => (1, t)
    | _ => (1, cs)
  let ds := signed.2.takeWhile Char.isDigit
  if ds.isEmpty then none
  else some (signed.1 * (ds.foldl (fun n c => n * 10 + (c.toNat - '0'.toNat)) 0 : ℕ))


/-! ## The request execution machine (src/src/server.ts `perform`)

One `TransportOutcome` describes what the platform transport does with one
transport call: either the request object emits `error`, or a response
arrives (status, headers, cookie list, `response.complete`, and the
collected body bytes as a string).

External collaborators are parameters, per the spec scope: `parseJSON` is
`JSON.parse` (`none` = throws), `resolveURL` is WHATWG `new URL(loc, base)`
resolution rendered back to a string. -/

inductive Json where
  | null
  | bool (b : Bool)
  | num (q : ℚ)
  | str (s : String)
  | arr (elems : List Json)
  | obj (fields : List (String × Json))

inductive BodyVal where
  | null
  | json (j : Json)
  | buffer (s : String)

inductive TransportOutcome where
  | netErr (reusedSocket : Bool) (code : Option String) (message : String)
  | resp (status : ℕ) (headers : HeaderMap) (cookies : Option (List String))
      (complete : Bool) (body : String)

structure HoneybeeResponse where
  status : ℕ
  headers : HeaderMap
  cookies : Option (List String)
  body : BodyVal

inductive Result where
  | success (res : HoneybeeResponse)
  | responseError (message : String) (res : HoneybeeResponse)
  | redirectError (message : String) (headers : HeaderMap)
  | netError (message : String) (code : Option String)
  | outOfEvents

/-- `responseType`; `json` also stands for the `undefined` default, which the
source treats identically (`opt.responseType === 'json' || opt.responseType == null`). -/
inductive RespType where
  | json
  | buffer

/-- The merged options record (`MergedOptions`).  `method`, `body` and
`headers` are the mutable working-request fields. -/
structure Opt where
  method : String
  body : Option String
  headers : HeaderMap
  responseType : RespType
  maxAttempts : ℕ
  retryDelayStep : ℚ
  retryDelayMax : ℚ
  retryDelayJitter : ℚ
  retryAfterMax : ℚ
  maxRedirects : ℕ

/-- `OPT_DEFAULTS` (src/src/server.ts); `method`/`body`/`headers`/
`responseType` are not in the source defaults object and get the neutral
values a bare `request({url})` produces. -/
def defaultOpt : Opt :=
  { method := "GET", body := none, headers := HeaderMap.empty, responseType := RespType.json,
    maxAttempts := 2, retryDelayStep := 200, retryDelayMax := 1000, retryDelayJitter := 100,
    retryAfterMax := 30000, maxRedirects := 5 }

/-- Should use GET instead of the original method (POST/PUT/etc). -/
def WEIRD_REDIRECT_CODES : List ℕ := [301, 302, 303]

def REDIRECT_CODES : List ℕ := WEIRD_REDIRECT_CODES ++ [307, 308]

/-- `http.STATUS_CODES[status] || 'Unknown'` (the entries used by the proofs). -/
def statusText (s : ℕ) : String :=
  if s = 200 then "OK"
  else if s = 204 then "No Content"
  else if s = 401 then "Unauthorized"
  else if s = 404 then "Not Found"
  else if s = 429 then "Too Many Requests"
  else if s = 500 then "Internal Server Error"
  else "Unknown"

/-- Retry delay for a retried 429 (src/src/server.ts lines 216-220): a
`Retry-After` header parsing to a positive integer gives
`min(retryAfter*1000, retryAfterMax)`; otherwise `expBackoff(...)`, which
consumes one pair of `Math.random()` values from the stream. -/
def retryDelay429 (headers : HeaderMap) (opt : Opt) (attempts : ℕ)
    (rnds : List (ℚ × ℚ)) : ℚ × List (ℚ × ℚ) :=
  let fallback : ℚ × List (ℚ × ℚ) :=
    let r := rnds.headD (0, 0)
    (expBackoff opt.retryDelayStep opt.retryDelayMax opt.retryDelayJitter attempts 2 r.1 r.2,
     rnds.tail)
  match headers.get "Retry-After" with
  | none => fallback
  | some s =>
    match parseIntJS s with
    | none => fallback
    | some n => if 0 < n then (jsMin ((n : ℚ) * 1000) opt.retryAfterMax, rnds) else fallback

/-- How the response body is parsed at a terminal status
(src/src/server.ts lines 222-230, `json` case swallows parse failures). -/
def respBody (rt : RespType) (parseJSON : String → Option Json) (body : String) : BodyVal :=
  match rt with
  | RespType.json =>
    match parseJSON body with
    | some j => BodyVal.json j
    | none => BodyVal.null
  | RespType.buffer => BodyVal.buffer body

/-- What `perform` does with one transport outcome: settle, or issue another
transport call with updated state (random stream, url, working options,
attempt counters, and the delay waited before the next call). -/
inductive StepRes where
  | terminal (r : Result)
  | again (rnds : List (ℚ × ℚ)) (url : String) (opt : Opt)
      (attempts redirectAttempts : ℕ) (delay : ℚ)

/-- One round of `perform` (src/src/server.ts lines 158-242): the
classification of a single transport outcome.  Mirrors the source's order:
reused-socket ECONNRESET retry / NetError; 204 success; 301/302/303 method
rewrite; redirect budget and Location resolution; incomplete-body NetError;
429 retry within budget; response parsing and `resolveOrReject`. -/
def performStep (parseJSON : String → Option Json) (resolveURL : String → String → String)
    (out : TransportOutcome) (rnds : List (ℚ × ℚ)) (url : String) (opt : Opt)
    (attempts redirectAttempts : ℕ) : StepRes :=
  match out with
  | TransportOutcome.netErr reused code _msg =>
    if reused = true ∧ code = some "ECONNRESET" then
      StepRes.again rnds url opt (attempts + 1) redirectAttempts 0
    else StepRes.terminal (Result.netError _msg code)
  | TransportOutcome.resp status hd cookies complete body =>
    let res : HoneybeeResponse := ⟨status, hd, cookies, BodyVal.null⟩
    if status = 204 then StepRes.terminal (Result.success res)
    else
      let opt2 : Opt :=
        if status ∈ WEIRD_REDIRECT_CODES then
          { opt with
            method := "GET"
            body := none
            headers := ((opt.headers.delete "Content-Type").delete
              "Content-Length").delete "Content-Encoding" }
        else opt
      if status ∈ REDIRECT_CODES then
        if opt2.maxRedirects ≤ redirectAttempts then
          StepRes.terminal (Result.redirectError "too many redirects" hd)
        else
          StepRes.again rnds (resolveURL ((hd.get "Location").getD "undefined") url) opt2
            attempts (redirectAttempts + 1) 0
      else if complete = false then
        StepRes.terminal (Result.netError "Connection ended prematurely" none)
      else if status = 429 ∧ attempts < opt2.maxAttempts then
        let d := retryDelay429 hd opt2 attempts rnds
        StepRes.again d.2 url opt2 (attempts + 1) redirectAttempts d.1
      else
        let res2 : HoneybeeResponse := { res with body := respBody opt2.responseType parseJSON body }
        if 200 ≤ status ∧ status < 300 then StepRes.terminal (Result.success res2)
        else StepRes.terminal (Result.responseError (statusText status) res2)

/-- One record per transport call actually issued: the working request at
call time plus the attempt counters and the delay waited before the call. -/
structure Call where
  url : String
  method : String
  body : Option String
  headers : HeaderMap
  delay : ℚ
  attempts : ℕ
  redirectAttempts : ℕ

/-- The recursive driver of `perform`: consumes one transport outcome per
transport call; returns the settlement plus the trace of transport calls.
The outcome list is the environment (what the network does on each call);
running out of outcomes models a transport that never answers. -/
def performM (parseJSON : String → Option Json) (resolveURL : String → String → String) :
    List TransportOutcome → List (ℚ × ℚ) → String → Opt → ℕ → ℕ → ℚ → Result × List Call
  | [], _, _, _, _, _, _ => (Result.outOfEvents, [])
  | out :: rest, rnds, url, opt, attempts, redirectAttempts, pendingDelay =>
    let call : Call := ⟨url, opt.method, opt.body, opt.headers, pendingDelay,
      attempts, redirectAttempts⟩
    match performStep parseJSON resolveURL out rnds url opt attempts redirectAttempts with
    | StepRes.terminal r => (r, [call])
    | StepRes.again rn u o2 a2 ra2 d =>
      let inner := performM parseJSON resolveURL rest rn u o2 a2 ra2 d
      (inner.1, call :: inner.2)

/-- Entry point state: `request()` calls `perform(url, opt, 1, 0)`. -/
def requestRun (parseJSON : String → Option Json) (resolveURL : String → String → String)
    (outs : List TransportOutcome) (rnds : List (ℚ × ℚ)) (url : String) (opt : Opt) :
    Result × List Call :=
  performM parseJSON resolveURL outs rnds url opt 1 0 0

/-! ## URL resolution model for redirect targets

`new URL(location, base)` is a platform primitive (spec §1 lists URL parsing
among the external collaborators), so `performM` takes the resolver as a
parameter.  `resolveURLModel` below is a concrete instance for the claims
about relative forms. -/

/-- Process `.` (stay) and `..` (pop) path segments against a reversed
directory stack. -/
def dotSegs : List String → List String → List String
  | stack, [] => stack.reverse
  | stack, "." :: rest => dotSegs stack rest
  | stack, ".." :: rest => dotSegs stack.tail rest
  | stack, s :: rest => dotSegs (s :: stack) rest

/-- Split a character list on `/`. -/
def splitSlashChars : List Char → List (List Char)
  | [] => [[]]
  | c :: rest =>
    let acc := splitSlashChars rest
    if c = '/' then [] :: acc
    else
      match acc with
      | g :: gs => (c :: g) :: gs
      | [] => [[c]]

/-- Split a string on `/`. -/
def splitSlash (s : String) : List String := (splitSlashChars s.data).map String.mk

/-- Does the string contain `://`? -/
def hasSchemeSep : List Char → Bool
  | [] => false
  | ':' :: '/' :: '/' :: _ => true
  | _ :: rest => hasSchemeSep rest

/-- Join path segments with `/`. -/
def joinSegs (segs : List String) : String :=
  String.mk (List.intercalate ['/'] (segs.map String.data))

/-- Modelled from the spec: WHATWG URL resolution (`new URL(location, base)`)
is an external primitive, out of scope per §1; §4.5 requires "resolve the
`Location` header against the current URL (supporting relative paths,
parent-relative `../`, and same-directory `./`)".  This models absolute
URLs, root-relative paths, and `.`/`..` relative paths against a base of
the form `scheme://host/seg/…/seg`. -/
def resolveURLModel (loc base : String) : String :=
  if hasSchemeSep loc.data then loc
  else
    match splitSlash base with
    | scheme :: "" :: host :: baseSegs =>
      if loc.data.head? = some '/' then scheme ++ "//" ++ host ++ loc
      else
        let fin := dotSegs baseSegs.dropLast.reverse (splitSlash loc)
        scheme ++ "//" ++ host ++ "/" ++ joinSegs fin
    | _ => loc


/-! ## The older callback client (src/unnamed/part_002)

`request` drives `retry`/`next`/`onRefresh` over per-request closure state
(`canRefresh`, `attempts`, `opt.headers.authorization`); `perform` is the
transport call (redirects are internal to it and treated as one outcome
here).  The auth collaborator's `toHeader()` results are a stream indexed by
call count; `refresh` completions are scripted like transport outcomes. -/

structure PErr where
  statusCode : Option ℕ
  code : Option String
deriving Repr, DecidableEq

/-- Outcome of one `perform` (callback `next(err, res)`): `ok` = success. -/
inductive POut where
  | ok
  | err (e : PErr)
deriving Repr, DecidableEq

/-- Outcome of one `auth.refresh` call (callback `onRefresh(err)`). -/
inductive RefOut where
  | ok
  | err (e : PErr)
deriving Repr, DecidableEq

/-- RETRY_CODES (src/unnamed/part_002). -/
def P2_RETRY_CODES : List ℕ := [429, 502, 503, 504]

structure PCfg where
  total : ℕ
  toHeaderVals : ℕ → Option String

structure PState where
  canRefresh : Bool
  authHeader : Option String
  attempts : ℕ
  authCalls : ℕ
  refreshCount : ℕ
  performTrace : List (ℕ × Option String)
deriving Repr, DecidableEq

inductive PFinal where
  | settled (err : Option PErr)
  | hung
deriving Repr, DecidableEq

/-- Which closure is about to run. -/
inductive Phase where
  | retry
  | next (err : Option PErr)
  | onRefresh (err : Option PErr)

/-- `err && attempts < opt.total && (err.code === 'ECONNRESET' ||
contains(RETRY_CODES, err.statusCode))` (part_002 lines 89-92). -/
def p2Retryable (e : PErr) (attempts total : ℕ) : Prop :=
  attempts < total ∧
    (e.code = some "ECONNRESET" ∨
      match e.statusCode with
      | some s => s ∈ P2_RETRY_CODES
      | none => False)

instance (e : PErr) (attempts total : ℕ) : Decidable (p2Retryable e attempts total) := by
  unfold p2Retryable
  cases e.statusCode <;> exact inferInstance

/-- The part_002 state machine: `retry` (lines 75-82), `next` (83-100),
`onRefresh` (101-110), with scripted transport (`outs`) and refresh
(`routs`) outcomes.  Fuel bounds the closure-call chain. -/
def pRun (cfg : PCfg) : ℕ → Phase → PState → List POut → List RefOut → PFinal × PState
  | 0, _, s, _, _ => (PFinal.hung, s)
  | fuel + 1, Phase.retry, s, outs, routs =>
    let s1 : PState := { s with attempts := s.attempts + 1 }
    if s1.canRefresh ∧ s1.authHeader = none then
      let s2 : PState := { s1 with refreshCount := s1.refreshCount + 1 }
      match routs with
      | [] => (PFinal.hung, s2)
      | r :: rrest =>
        pRun cfg fuel (Phase.onRefresh (match r with | RefOut.ok => none | RefOut.err e => some e))
          s2 outs rrest
    else
      let s2 : PState := { s1 with performTrace := s1.performTrace ++ [(s1.attempts, s1.authHeader)] }
      match outs with
      | [] => (PFinal.hung, s2)
      | o :: orest =>
        pRun cfg fuel (Phase.next (match o with | POut.ok => none | POut.err e => some e))
          s2 orest routs
  | fuel + 1, Phase.next err, s, outs, routs =>
    match err with
    | none => (PFinal.settled none, s)
    | some e =>
      if e.statusCode = some 401 ∧ s.canRefresh then
        let s2 : PState := { s with refreshCount := s.refreshCount + 1 }
        match routs with
        | [] => (PFinal.hung, s2)
        | r :: rrest =>
          pRun cfg fuel (Phase.onRefresh (match r with | RefOut.ok => none | RefOut.err e2 => some e2))
            s2 outs rrest
      else if p2Retryable e s.attempts cfg.total then
        pRun cfg fuel Phase.retry s outs routs
      else (PFinal.settled (some e), s)
  | fuel + 1, Phase.onRefresh err, s, outs, routs =>
    let s2 : PState := { s with
      canRefresh := false
      authHeader := cfg.toHeaderVals s.authCalls
      authCalls := s.authCalls + 1 }
    match err with
    | some e => pRun cfg fuel (Phase.next (some e)) s2 outs routs
    | none => pRun cfg fuel Phase.retry s2 outs routs

/-- Initial closure state (part_002 lines 52-64): `canRefresh = opt.auth &&
opt.auth.refresh`, and `opt.headers.authorization = opt.auth.toHeader()`
when an auth collaborator is present. -/
def pInit (cfg : PCfg) (hasAuth hasRefresh : Bool) : PState :=
  { canRefresh := hasAuth && hasRefresh
    authHeader := if hasAuth then cfg.toHeaderVals 0 else none
    attempts := 0
    authCalls := if hasAuth then 1 else 0
    refreshCount := 0
    performTrace := [] }

/-- `request()` body after option merging: start with `retry()`. -/
def pRequest (cfg : PCfg) (hasAuth hasRefresh : Bool) (fuel : ℕ)
    (outs : List POut) (routs : List RefOut) : PFinal × PState :=
  pRun cfg fuel Phase.retry (pInit cfg hasAuth hasRefresh) outs routs

/-! ## Post-cancellation dispatch (part_002 `next`/`abort`, lib/index.js `next`)

Cancellation is about which branch a late `next(err, res)` invocation takes
once `abort()` has set `isAborted`.  Both clients' `next` dispatchers are
modelled as pure decision functions. -/

inductive NextAction where
  | ignore
  | refresh
  | retryLater
  | settle (err : Option PErr)
deriving Repr, DecidableEq

/-- part_002 `next(err, res)` (lines 83-100): `if (isAborted) {}` comes
first, so nothing is done (no settle, no retry, no refresh) once aborted. -/
def p2Next (isAborted canRefresh : Bool) (attempts total : ℕ) (err : Option PErr) : NextAction :=
  if isAborted then NextAction.ignore
  else
    match err with
    | some e =>
      if e.statusCode = some 401 ∧ canRefresh then NextAction.refresh
      else if p2Retryable e attempts total then NextAction.retryLater
      else NextAction.settle (some e)
    | none => NextAction.settle none

/-- part_002 `onRefresh(err)` (lines 101-110): returns immediately when
aborted. -/
def p2OnRefresh (isAborted : Bool) (err : Option PErr) : NextAction :=
  if isAborted then NextAction.ignore
  else match err with
    | some e => NextAction.settle (some e)
    | none => NextAction.retryLater

/-- lib/index.js RETRY_CODES. -/
def IDX_RETRY_CODES : List ℕ := [429, 502, 503, 504]

/-- `err.code === 'ECONNRESET' || contains(RETRY_CODES, err.status)`
(lib/index.js line 168). -/
def idxRetryable (e : PErr) : Prop :=
  e.code = some "ECONNRESET" ∨
    match e.statusCode with
    | some s => s ∈ IDX_RETRY_CODES
    | none => False

instance (e : PErr) : Decidable (idxRetryable e) := by
  unfold idxRetryable
  cases e.statusCode <;> exact inferInstance

/-- lib/index.js `next(err, res, headers)` (lines 166-180):
`if (!isAborted && err && (err.code === 'ECONNRESET' ||
contains(RETRY_CODES, err.status)) && ++attempts < retry.total)` retries;
`else if (!isDone) { isDone = true; done(err, res, headers) }`.  After
`abort()` only the retry branch is suppressed: the else branch still calls
`done`. -/
def idxNext (isAborted isDone : Bool) (attempts total : ℕ) (err : Option PErr) : NextAction :=
  match err with
  | some e =>
    if isAborted = false ∧ idxRetryable e ∧ attempts + 1 < total then NextAction.retryLater
    else if isDone = false then NextAction.settle (some e)
    else NextAction.ignore
  | none =>
    if isDone = false then NextAction.settle none
    else NextAction.ignore

/-- The working options after a 301/302/303 method rewrite. -/
def weirdRewrite (opt : Opt) : Opt :=
  { opt with
    method := "GET"
    body := none
    headers := ((opt.headers.delete "Content-Type").delete
      "Content-Length").delete "Content-Encoding" }

/-- The outcome is not the reused-socket ECONNRESET special case. -/
def noReset (o : TransportOutcome) : Prop :=
  match o with
  | TransportOutcome.netErr reused code _ => ¬(reused = true ∧ code = some "ECONNRESET")
  | TransportOutcome.resp _ _ _ _ _ => True

/-- Accounting for refreshes still possible from a given phase/state:
`onRefresh` always clears `canRefresh` before doing anything else. -/
def refreshPotential : Phase → PState → ℕ
  | Phase.onRefresh _, s => s.refreshCount
  | _, s => s.refreshCount + (if s.canRefresh then 1 else 0)

/-! ## Bridges from the JS numeric primitives to the library operations -/

theorem jsFloor_eq (q : ℚ) : jsFloor q = ⌊q⌋ := Rat.floor_def.symm

theorem jsCeil_eq (q : ℚ) : jsCeil q = ⌈q⌉ := by
  rw [jsCeil, jsFloor_eq, Int.floor_neg, neg_neg]

theorem jsMin_eq (a b : ℚ) : jsMin a b = min a b := by
  rw [jsMin, min_def]

theorem jsMax_eq (a b : ℚ) : jsMax a b = max a b := by
  rw [jsMax, max_def]

theorem jsDiv_eq (a b : ℚ) : jsDiv a b = a / b := by
  rcases eq_or_ne b 0 with rfl | hb
  · have h0 : (0 : ℚ).num = 0 := rfl
    simp [jsDiv, h0]
  · have hbn : b.num ≠ 0 := Rat.num_ne_zero.mpr hb
    have had : ((a.den : ℚ)) ≠ 0 := by
      exact_mod_cast (Nat.pos_of_ne_zero a.den_nz).ne'
    have hbd : ((b.den : ℚ)) ≠ 0 := by
      exact_mod_cast (Nat.pos_of_ne_zero b.den_nz).ne'
    have habsq : ((b.num.natAbs : ℕ) : ℚ) ≠ 0 := by
      simpa using fun hh => hbn (Int.natAbs_eq_zero.mp hh)
    have hA : (a.num : ℚ) = a * a.den := by
      have e := Rat.num_div_den a
      rw [div_eq_iff had] at e
      exact e
    have hB : (b.num : ℚ) = b * b.den := by
      have e := Rat.num_div_den b
      rw [div_eq_iff hbd] at e
      exact e
    rcases le_or_lt 0 b.num with h | h
    · have habsQ : ((b.num.natAbs : ℕ) : ℚ) = (b.num : ℚ) := by
        rw [Int.cast_natAbs]
        exact_mod_cast abs_of_nonneg h
      rw [jsDiv, if_pos h, Rat.mkRat_eq_div]
      push_cast
      rw [div_eq_div_iff (mul_ne_zero had habsq) hb, hA, habsQ, hB]
      ring
    · have habsQ : ((b.num.natAbs : ℕ) : ℚ) = -(b.num : ℚ) := by
        rw [Int.cast_natAbs]
        exact_mod_cast abs_of_neg h
      rw [jsDiv, if_neg (not_le.mpr h), Rat.mkRat_eq_div]
      push_cast
      rw [div_eq_div_iff (mul_ne_zero had habsq) hb, hA, habsQ, hB]
      ring

/-- Unfolding of `expBackoff` in terms of the library floor/ceil/min/max. -/
theorem expBackoff_expand (step high jitter : ℚ) (attempts : ℕ) (exp r1 r2 : ℚ) :
    expBackoff step high jitter attempts exp r1 r2 =
      max 0 (min (((1 + ⌊((⌈min (high / step) (exp ^ attempts)⌉ : ℤ) : ℚ) * r1⌋ : ℤ) : ℚ) * step
        + ((⌊r2 * jitter * 2⌋ : ℤ) : ℚ) - jitter) high) := by
  simp only [expBackoff, backoffSlots, jsFloor_eq, jsCeil_eq, jsMin_eq, jsMax_eq, jsDiv_eq]

/-- Unfolding of `maxBackoff` in terms of the library ceil/min. -/
theorem maxBackoff_expand (step high exp : ℚ) (attempts : ℕ) :
    maxBackoff step high exp attempts =
      min (((⌈min (high / step) (exp ^ attempts)⌉ : ℤ) : ℚ) * step) high := by
  simp only [maxBackoff, backoffSlots, jsCeil_eq, jsMin_eq, jsDiv_eq]

/-! ## Step lemmas for the executor -/

theorem performM_nil {p : String → Option Json} {r : String → String → String}
    {rnds : List (ℚ × ℚ)} {url : String} {opt : Opt} {a ra : ℕ} {pd : ℚ} :
    performM p r [] rnds url opt a ra pd = (Result.outOfEvents, []) := rfl

theorem performM_terminal {p : String → Option Json} {r : String → String → String}
    {o : TransportOutcome} {rest : List TransportOutcome} {rnds : List (ℚ × ℚ)}
    {url : String} {opt : Opt} {a ra : ℕ} {pd : ℚ} {t : Result}
    (h : performStep p r o rnds url opt a ra = StepRes.terminal t) :
    performM p r (o :: rest) rnds url opt a ra pd =
      (t, [⟨url, opt.method, opt.body, opt.headers, pd, a, ra⟩]) := by
  simp only [performM, h]

theorem performM_again {p : String → Option Json} {r : String → String → String}
    {o : TransportOutcome} {rest : List TransportOutcome} {rnds : List (ℚ × ℚ)}
    {url : String} {opt : Opt} {a ra : ℕ} {pd : ℚ}
    {rn : List (ℚ × ℚ)} {u : String} {o2 : Opt} {a2 ra2 : ℕ} {d : ℚ}
    (h : performStep p r o rnds url opt a ra = StepRes.again rn u o2 a2 ra2 d) :
    performM p r (o :: rest) rnds url opt a ra pd =
      ((performM p r rest rn u o2 a2 ra2 d).1,
        ⟨url, opt.method, opt.body, opt.headers, pd, a, ra⟩ ::
          (performM p r rest rn u o2 a2 ra2 d).2) := by
  simp only [performM, h]

theorem performStep_netErr_reset {p : String → Option Json} {r : String → String → String}
    {m : String} {rnds : List (ℚ × ℚ)} {url : String} {opt : Opt} {a ra : ℕ} :
    performStep p r (TransportOutcome.netErr true (some "ECONNRESET") m) rnds url opt a ra =
      StepRes.again rnds url opt (a + 1) ra 0 := by
  simp [performStep]

theorem performStep_netErr_term {p : String → Option Json} {r : String → String → String}
    {reused : Bool} {code : Option String} {m : String} {rnds : List (ℚ × ℚ)}
    {url : String} {opt : Opt} {a ra : ℕ}
    (h : ¬(reused = true ∧ code = some "ECONNRESET")) :
    performStep p r (TransportOutcome.netErr reused code m) rnds url opt a ra =
      StepRes.terminal (Result.netError m code) := by
  simp only [performStep, if_neg h]

theorem performStep_204 {p : String → Option Json} {r : String → String → String}
    {hd : HeaderMap} {c : Option (List String)} {cm : Bool} {b : String}
    {rnds : List (ℚ × ℚ)} {url : String} {opt : Opt} {a ra : ℕ} :
    performStep p r (TransportOutcome.resp 204 hd c cm b) rnds url opt a ra =
      StepRes.terminal (Result.success ⟨204, hd, c, BodyVal.null⟩) := by
  simp [performStep]

theorem performStep_weird_follow {p : String → Option Json} {r : String → String → String}
    {s : ℕ} {hd : HeaderMap} {c : Option (List String)} {cm : Bool} {b : String}
    {rnds : List (ℚ × ℚ)} {url : String} {opt : Opt} {a ra : ℕ}
    (hs : s ∈ WEIRD_REDIRECT_CODES) (hb : ra < opt.maxRedirects) :
    performStep p r (TransportOutcome.resp s hd c cm b) rnds url opt a ra =
      StepRes.again rnds (r ((hd.get "Location").getD "undefined") url) (weirdRewrite opt)
        a (ra + 1) 0 := by
  have h204 : s ≠ 204 := by
    simp only [WEIRD_REDIRECT_CODES, List.mem_cons, List.not_mem_nil, or_false] at hs
    omega
  have hs2 : s ∈ WEIRD_REDIRECT_CODES := hs
  have hred : s ∈ REDIRECT_CODES := by
    simp only [REDIRECT_CODES, List.mem_append]
    exact Or.inl hs2
  simp only [performStep, if_neg h204, if_pos hs2, if_pos hred,
    if_neg (not_le.mpr hb), weirdRewrite]

theorem performStep_std_follow {p : String → Option Json} {r : String → String → String}
    {s : ℕ} {hd : HeaderMap} {c : Option (List String)} {cm : Bool} {b : String}
    {rnds : List (ℚ × ℚ)} {url : String} {opt : Opt} {a ra : ℕ}
    (hs : s = 307 ∨ s = 308) (hb : ra < opt.maxRedirects) :
    performStep p r (TransportOutcome.resp s hd c cm b) rnds url opt a ra =
      StepRes.again rnds (r ((hd.get "Location").getD "undefined") url) opt
        a (ra + 1) 0 := by
  have h204 : s ≠ 204 := by rcases hs with rfl | rfl <;> omega
  have hw : s ∉ WEIRD_REDIRECT_CODES := by
    rcases hs with rfl | rfl <;> decide
  have hred : s ∈ REDIRECT_CODES := by
    rcases hs with rfl | rfl <;> decide
  simp only [performStep, if_neg h204, if_neg hw, if_pos hred, if_neg (not_le.mpr hb)]

theorem performStep_redirect_exhausted {p : String → Option Json} {r : String → String → String}
    {s : ℕ} {hd : HeaderMap} {c : Option (List String)} {cm : Bool} {b : String}
    {rnds : List (ℚ × ℚ)} {url : String} {opt : Opt} {a ra : ℕ}
    (hs : s ∈ REDIRECT_CODES) (hb : opt.maxRedirects ≤ ra) :
    performStep p r (TransportOutcome.resp s hd c cm b) rnds url opt a ra =
      StepRes.terminal (Result.redirectError "too many redirects" hd) := by
  have h204 : s ≠ 204 := by
    simp only [REDIRECT_CODES, WEIRD_REDIRECT_CODES, List.mem_append, List.mem_cons,
      List.not_mem_nil, or_false] at hs
    omega
  by_cases hw : s ∈ WEIRD_REDIRECT_CODES
  · have hb2 : (weirdRewrite opt).maxRedirects ≤ ra := hb
    simp only [performStep, if_neg h204, if_pos hw, if_pos hs, weirdRewrite]
    rw [if_pos hb]
  · simp only [performStep, if_neg h204, if_neg hw, if_pos hs, if_pos hb]

theorem performStep_429_retry {p : String → Option Json} {r : String → String → String}
    {hd : HeaderMap} {c : Option (List String)} {b : String}
    {rnds : List (ℚ × ℚ)} {url : String} {opt : Opt} {a ra : ℕ}
    (h : a < opt.maxAttempts) :
    performStep p r (TransportOutcome.resp 429 hd c true b) rnds url opt a ra =
      StepRes.again (retryDelay429 hd opt a rnds).2 url opt (a + 1) ra
        (retryDelay429 hd opt a rnds).1 := by
  simp only [performStep, if_neg (by decide : ¬((429 : ℕ) = 204)),
    if_neg (by decide : ¬((429 : ℕ) ∈ WEIRD_REDIRECT_CODES)),
    if_neg (by decide : ¬((429 : ℕ) ∈ REDIRECT_CODES)),
    if_neg (by decide : ¬(true = false))]
  rw [if_pos (And.intro trivial h)]

theorem performStep_terminal_resp {p : String → Option Json} {r : String → String → String}
    {s : ℕ} {hd : HeaderMap} {c : Option (List String)} {b : String}
    {rnds : List (ℚ × ℚ)} {url : String} {opt : Opt} {a ra : ℕ}
    (h204 : s ≠ 204) (hred : s ∉ REDIRECT_CODES) (h429 : ¬(s = 429 ∧ a < opt.maxAttempts)) :
    performStep p r (TransportOutcome.resp s hd c true b) rnds url opt a ra =
      StepRes.terminal
        (if 200 ≤ s ∧ s < 300 then
          Result.success ⟨s, hd, c, respBody opt.responseType p b⟩
        else Result.responseError (statusText s) ⟨s, hd, c, respBody opt.responseType p b⟩) := by
  have hw : s ∉ WEIRD_REDIRECT_CODES := fun hmem =>
    hred (by simp only [REDIRECT_CODES, List.mem_append]; exact Or.inl hmem)
  simp only [performStep, if_neg h204, if_neg hw, if_neg hred,
    if_neg (by decide : ¬(true = false)), if_neg h429]
  rw [apply_ite StepRes.terminal]


/-! ## Claim theorems -/

/-- C1: with `maxAttempts = 3` and a server answering every transport call
with a complete 429 response, the executor performs exactly 3 transport
calls and settles with a terminal `ResponseError` whose status is 429. -/
theorem claim1_three_429_attempts {p : String → Option Json} {rv : String → String → String}
    {o1 o2 o3 : TransportOutcome} {rest : List TransportOutcome} {rnds : List (ℚ × ℚ)}
    {url : String} {opt : Opt} (hma : opt.maxAttempts = 3)
    (h1 : ∃ hd c b, o1 = TransportOutcome.resp 429 hd c true b)
    (h2 : ∃ hd c b, o2 = TransportOutcome.resp 429 hd c true b)
    (h3 : ∃ hd c b, o3 = TransportOutcome.resp 429 hd c true b) :
    (∃ res, (requestRun p rv (o1 :: o2 :: o3 :: rest) rnds url opt).1 =
        Result.responseError "Too Many Requests" res ∧ res.status = 429) ∧
      (requestRun p rv (o1 :: o2 :: o3 :: rest) rnds url opt).2.length = 3 := by
  obtain ⟨hdA, cA, bA, rfl⟩ := h1
  obtain ⟨hdB, cB, bB, rfl⟩ := h2
  obtain ⟨hdC, cC, bC, rfl⟩ := h3
  have t3 : ∀ rn : List (ℚ × ℚ),
      performStep p rv (TransportOutcome.resp 429 hdC cC true bC) rn url opt 3 0 =
        StepRes.terminal (Result.responseError (statusText 429)
          ⟨429, hdC, cC, respBody opt.responseType p bC⟩) := by
    intro rn
    rw [performStep_terminal_resp (by decide) (by decide) (fun hx => absurd hx.2 (by omega))]
    rw [if_neg (by decide : ¬(200 ≤ 429 ∧ 429 < 300))]
  rw [requestRun,
    performM_again (performStep_429_retry (show (1 : ℕ) < opt.maxAttempts by omega)),
    performM_again (performStep_429_retry (show (2 : ℕ) < opt.maxAttempts by omega)),
    performM_terminal (t3 _)]
  exact ⟨⟨⟨429, hdC, cC, respBody opt.responseType p bC⟩, rfl, rfl⟩, rfl⟩

/-- C10: under the `json` (or default) responseType, a complete 2xx
(non-204) response whose body fails JSON parsing settles successfully with
a null body and exactly one transport call (no error). -/
theorem claim10_bad_json_yields_null {p : String → Option Json} {rv : String → String → String}
    {s : ℕ} {hd : HeaderMap} {c : Option (List String)} {b : String}
    {rest : List TransportOutcome} {rnds : List (ℚ × ℚ)}
    {url : String} {opt : Opt} {a ra : ℕ} {pd : ℚ}
    (hrt : opt.responseType = RespType.json) (hp : p b = none)
    (hlo : 200 ≤ s) (hhi : s < 300) (h204 : s ≠ 204) :
    performM p rv (TransportOutcome.resp s hd c true b :: rest) rnds url opt a ra pd =
      (Result.success ⟨s, hd, c, BodyVal.null⟩,
        [⟨url, opt.method, opt.body, opt.headers, pd, a, ra⟩]) := by
  have hred : s ∉ REDIRECT_CODES := by
    simp only [REDIRECT_CODES, WEIRD_REDIRECT_CODES, List.mem_append, List.mem_cons,
      List.not_mem_nil, or_false]
    omega
  have h429 : ¬(s = 429 ∧ a < opt.maxAttempts) := fun hx => by omega
  rw [performM_terminal (performStep_terminal_resp h204 hred h429)]
  rw [if_pos ⟨hlo, hhi⟩, hrt]
  simp [respBody, hp]

/-- C9 evaluation: `append` joins two `Set-Cookie` values into the single
string `"a=1, b=2"` (set-cookie is not special-cased, contradicting the doc
comment's "set-cookie is always an array"); other headers join with `", "`,
`cookie` joins with `"; "`, SINGLE_HEADERS overwrite, and
`set`/`get`/`has`/`delete` are case-insensitive. -/
theorem claim9_headermap_eval :
    ((HeaderMap.empty.append "Set-Cookie" "a=1").append "Set-Cookie" "b=2").get "set-cookie"
        = some "a=1, b=2" ∧
      ((HeaderMap.empty.append "X-Thing" "u").append "X-Thing" "v").get "x-thing"
        = some "u, v" ∧
      ((HeaderMap.empty.append "Cookie" "a=1").append "Cookie" "b=2").get "cookie"
        = some "a=1; b=2" ∧
      ((HeaderMap.empty.append "ETag" "one").append "ETag" "two").get "etag"
        = some "two" ∧
      (HeaderMap.empty.set "X-Foo" "bar").get "x-foo" = some "bar" ∧
      (HeaderMap.empty.set "x-foo" "bar").get "X-FOO" = some "bar" ∧
      (HeaderMap.empty.set "X-Foo" "bar").has "X-FOO" = true ∧
      ((HeaderMap.empty.set "X-Foo" "bar").delete "x-Foo").get "X-Foo" = none := by
  exact ⟨rfl, rfl, rfl, rfl, rfl, rfl, rfl, rfl⟩


/-- Witness for C1 at a concrete input. -/
theorem claim1_three_429_attempts_witness :
    (∃ res, (requestRun (fun _ => none) (fun l _ => l)
        [TransportOutcome.resp 429 HeaderMap.empty none true "",
         TransportOutcome.resp 429 HeaderMap.empty none true "",
         TransportOutcome.resp 429 HeaderMap.empty none true ""] [] "http://x"
        { defaultOpt with maxAttempts := 3 }).1 =
      Result.responseError "Too Many Requests" res ∧ res.status = 429) ∧
    (requestRun (fun _ => none) (fun l _ => l)
        [TransportOutcome.resp 429 HeaderMap.empty none true "",
         TransportOutcome.resp 429 HeaderMap.empty none true "",
         TransportOutcome.resp 429 HeaderMap.empty none true ""] [] "http://x"
        { defaultOpt with maxAttempts := 3 }).2.length = 3 :=
  claim1_three_429_attempts rfl ⟨HeaderMap.empty, none, "", rfl⟩
    ⟨HeaderMap.empty, none, "", rfl⟩ ⟨HeaderMap.empty, none, "", rfl⟩

/-- Witness for C10 at a concrete input. -/
theorem claim10_bad_json_yields_null_witness :
    performM (fun _ => none) (fun l _ => l)
      [TransportOutcome.resp 200 HeaderMap.empty none true "not json"] [] "http://x"
      defaultOpt 1 0 0 =
      (Result.success ⟨200, HeaderMap.empty, none, BodyVal.null⟩,
        [⟨"http://x", "GET", none, HeaderMap.empty, 0, 1, 0⟩]) :=
  claim10_bad_json_yields_null rfl rfl (by norm_num) (by norm_num) (by decide)

/-! ## HeaderMap delete lemmas -/

theorem HeaderMap.rawGet_filter_ne (l : List (String × String)) (k1 k2 : String)
    (h : k2 ≠ k1) :
    (HeaderMap.mk (l.filter (fun e => e.1 != k1))).rawGet k2 =
      (HeaderMap.mk l).rawGet k2 := by
  induction l with
  | nil => rfl
  | cons e t ih =>
    by_cases he : e.1 = k1
    · have hne : ¬(e.1 == k2) = true := by
        simp only [beq_iff_eq]
        rw [he]
        exact fun hh => h hh.symm
      simp only [HeaderMap.rawGet, List.filter] at ih ⊢
      rw [he]
      simp only [bne_self_eq_false]
      rw [List.find?]
      simp only [hne, if_false]
      exact ih
    · simp only [HeaderMap.rawGet, List.filter] at ih ⊢
      have hbne : (e.1 != k1) = true := by
        simp only [bne_iff_ne, ne_eq]
        exact he
      rw [hbne]
      by_cases h2 : e.1 = k2
      · rw [List.find?, List.find?]
        simp [h2]
      · rw [List.find?, List.find?]
        have : ¬(e.1 == k2) = true := by simp [h2]
        simp only [this, if_false]
        exact ih

theorem HeaderMap.get_delete_self (m : HeaderMap) (k k2 : String)
    (h : lowerStr k2 = lowerStr k) :
    (m.delete k).get k2 = none := by
  simp only [HeaderMap.get, HeaderMap.delete, HeaderMap.rawGet, h]
  have hfind : List.find? (fun e => e.1 == lowerStr k)
      (List.filter (fun e => e.1 != lowerStr k) m.entries) = none := by
    rw [List.find?_eq_none]
    intro e he hbeq
    have h1 := (List.mem_filter.mp he).2
    rw [beq_iff_eq] at hbeq
    rw [bne_iff_ne] at h1
    exact h1 hbeq
  rw [hfind]
  rfl

theorem HeaderMap.get_delete_other (m : HeaderMap) (k k2 : String)
    (h : lowerStr k2 ≠ lowerStr k) :
    (m.delete k).get k2 = m.get k2 := by
  simp only [HeaderMap.get, HeaderMap.delete]
  exact HeaderMap.rawGet_filter_ne m.entries (lowerStr k) (lowerStr k2) h

/-- The three stripped entity headers read back as absent after a
301/302/303 rewrite. -/
theorem weirdRewrite_strips (opt : Opt) :
    (weirdRewrite opt).headers.get "Content-Type" = none ∧
      (weirdRewrite opt).headers.get "Content-Length" = none ∧
      (weirdRewrite opt).headers.get "Content-Encoding" = none := by
  refine ⟨?_, ?_, ?_⟩
  · rw [weirdRewrite]
    rw [HeaderMap.get_delete_other _ _ _ (by decide),
      HeaderMap.get_delete_other _ _ _ (by decide),
      HeaderMap.get_delete_self _ _ _ rfl]
  · rw [weirdRewrite]
    rw [HeaderMap.get_delete_other _ _ _ (by decide),
      HeaderMap.get_delete_self _ _ _ rfl]
  · rw [weirdRewrite]
    rw [HeaderMap.get_delete_self _ _ _ rfl]


/-- The first transport call of any run records the working request at entry. -/
theorem performM_trace_head {p : String → Option Json} {r : String → String → String}
    {o : TransportOutcome} {rest : List TransportOutcome} {rnds : List (ℚ × ℚ)}
    {url : String} {opt : Opt} {a ra : ℕ} {pd : ℚ} :
    ((performM p r (o :: rest) rnds url opt a ra pd).2).head? =
      some ⟨url, opt.method, opt.body, opt.headers, pd, a, ra⟩ := by
  cases h : performStep p r o rnds url opt a ra with
  | terminal t => rw [performM_terminal h]; rfl
  | again rn u o2 a2 ra2 d => rw [performM_again h]; rfl

/-- The second transport call of a run whose first outcome leads to another
call records the updated working request. -/
theorem performM_second_call {p : String → Option Json} {r : String → String → String}
    {o o2out : TransportOutcome} {rest : List TransportOutcome} {rnds : List (ℚ × ℚ)}
    {url : String} {opt : Opt} {a ra : ℕ} {pd : ℚ}
    {rn : List (ℚ × ℚ)} {u : String} {o2 : Opt} {a2 ra2 : ℕ} {d : ℚ}
    (h : performStep p r o rnds url opt a ra = StepRes.again rn u o2 a2 ra2 d) :
    ((performM p r (o :: o2out :: rest) rnds url opt a ra pd).2).get? 1 =
      some ⟨u, o2.method, o2.body, o2.headers, d, a2, ra2⟩ := by
  rw [performM_again h]
  show ((performM p r (o2out :: rest) rn u o2 a2 ra2 d).2).get? 0 = _
  cases h2 : performStep p r o2out rn u o2 a2 ra2 with
  | terminal t => rw [performM_terminal h2]; rfl
  | again rn2 u2 ox a3 ra3 d2 => rw [performM_again h2]; rfl

/-- C4: a 301/302/303 response makes the next transport call use method GET,
no body, and a header set from which Content-Type, Content-Length and
Content-Encoding have been removed; a 307/308 response makes the next call
reuse the method, body and headers unchanged. -/
theorem claim4_redirect_method_rewrite :
    (∀ (p : String → Option Json) (rv : String → String → String) (s : ℕ)
      (hd : HeaderMap) (c : Option (List String)) (cm : Bool) (b : String)
      (o2out : TransportOutcome) (rest : List TransportOutcome) (rnds : List (ℚ × ℚ))
      (url : String) (opt : Opt) (a ra : ℕ) (pd : ℚ),
      s ∈ WEIRD_REDIRECT_CODES → ra < opt.maxRedirects →
      ((performM p rv (TransportOutcome.resp s hd c cm b :: o2out :: rest)
          rnds url opt a ra pd).2).get? 1 =
        some ⟨rv ((hd.get "Location").getD "undefined") url, "GET", none,
          (weirdRewrite opt).headers, 0, a, ra + 1⟩ ∧
      (weirdRewrite opt).headers.get "Content-Type" = none ∧
      (weirdRewrite opt).headers.get "Content-Length" = none ∧
      (weirdRewrite opt).headers.get "Content-Encoding" = none) ∧
    (∀ (p : String → Option Json) (rv : String → String → String) (s : ℕ)
      (hd : HeaderMap) (c : Option (List String)) (cm : Bool) (b : String)
      (o2out : TransportOutcome) (rest : List TransportOutcome) (rnds : List (ℚ × ℚ))
      (url : String) (opt : Opt) (a ra : ℕ) (pd : ℚ),
      (s = 307 ∨ s = 308) → ra < opt.maxRedirects →
      ((performM p rv (TransportOutcome.resp s hd c cm b :: o2out :: rest)
          rnds url opt a ra pd).2).get? 1 =
        some ⟨rv ((hd.get "Location").getD "undefined") url, opt.method, opt.body,
          opt.headers, 0, a, ra + 1⟩) := by
  constructor
  · intro p rv s hd c cm b o2out rest rnds url opt a ra pd hs hb
    refine ⟨?_, weirdRewrite_strips opt⟩
    exact performM_second_call (performStep_weird_follow hs hb)
  · intro p rv s hd c cm b o2out rest rnds url opt a ra pd hs hb
    exact performM_second_call (performStep_std_follow hs hb)


/-- Witness for C4 at concrete inputs (a 302 and a 307, with
`resolveURLModel` as the resolver and entity headers present). -/
theorem claim4_redirect_method_rewrite_witness :
    (((performM (fun _ => none) resolveURLModel
        [TransportOutcome.resp 302 (HeaderMap.empty.set "Location" "/loc") none true "",
         TransportOutcome.resp 204 HeaderMap.empty none true ""] [] "https://h/a"
        { defaultOpt with
          method := "POST"
          body := some "B"
          headers := (HeaderMap.empty.set "Content-Type" "t").set "Content-Length" "1" }
        1 0 0).2).get? 1 =
      some ⟨"https://h/loc", "GET", none,
        (weirdRewrite { defaultOpt with
          method := "POST"
          body := some "B"
          headers := (HeaderMap.empty.set "Content-Type" "t").set "Content-Length" "1" }).headers,
        0, 1, 1⟩ ∧
      (weirdRewrite { defaultOpt with
        method := "POST"
        body := some "B"
        headers := (HeaderMap.empty.set "Content-Type" "t").set "Content-Length" "1" }).headers.get
          "Content-Type" = none ∧
      (weirdRewrite { defaultOpt with
        method := "POST"
        body := some "B"
        headers := (HeaderMap.empty.set "Content-Type" "t").set "Content-Length" "1" }).headers.get
          "Content-Length" = none ∧
      (weirdRewrite { defaultOpt with
        method := "POST"
        body := some "B"
        headers := (HeaderMap.empty.set "Content-Type" "t").set "Content-Length" "1" }).headers.get
          "Content-Encoding" = none) ∧
    ((performM (fun _ => none) resolveURLModel
        [TransportOutcome.resp 307 (HeaderMap.empty.set "Location" "/loc") none true "",
         TransportOutcome.resp 204 HeaderMap.empty none true ""] [] "https://h/a"
        { defaultOpt with method := "POST", body := some "B" } 1 0 0).2).get? 1 =
      some ⟨"https://h/loc", "POST", some "B", HeaderMap.empty, 0, 1, 1⟩ :=
  ⟨claim4_redirect_method_rewrite.1 (fun _ => none) resolveURLModel 302
      (HeaderMap.empty.set "Location" "/loc") none true "" (TransportOutcome.resp 204 HeaderMap.empty none true "")
      [] [] "https://h/a" _ 1 0 0 (by decide) (by decide),
    claim4_redirect_method_rewrite.2 (fun _ => none) resolveURLModel 307
      (HeaderMap.empty.set "Location" "/loc") none true "" (TransportOutcome.resp 204 HeaderMap.empty none true "")
      [] [] "https://h/a" _ 1 0 0 (Or.inl rfl) (by decide)⟩

/-- C5: a redirect-eligible response at the redirect budget settles as a
terminal `RedirectError` carrying that response's headers with no further
transport call; below the budget, the next transport call goes to the
Location target resolved against the current URL with `redirectAttempts`
incremented and `attempts` unchanged; and the modelled resolver supports
root-relative, `./` and `../` forms. -/
theorem claim5_redirect_budget_and_resolution :
    (∀ (p : String → Option Json) (rv : String → String → String) (s : ℕ)
      (hd : HeaderMap) (c : Option (List String)) (cm : Bool) (b : String)
      (rest : List TransportOutcome) (rnds : List (ℚ × ℚ))
      (url : String) (opt : Opt) (a ra : ℕ) (pd : ℚ),
      s ∈ REDIRECT_CODES → opt.maxRedirects ≤ ra →
      performM p rv (TransportOutcome.resp s hd c cm b :: rest) rnds url opt a ra pd =
        (Result.redirectError "too many redirects" hd,
          [⟨url, opt.method, opt.body, opt.headers, pd, a, ra⟩])) ∧
    (∀ (p : String → Option Json) (rv : String → String → String) (s : ℕ)
      (hd : HeaderMap) (c : Option (List String)) (cm : Bool) (b loc : String)
      (o2out : TransportOutcome) (rest : List TransportOutcome) (rnds : List (ℚ × ℚ))
      (url : String) (opt : Opt) (a ra : ℕ) (pd : ℚ),
      s ∈ REDIRECT_CODES → ra < opt.maxRedirects → hd.get "Location" = some loc →
      ∃ m bo hds, ((performM p rv (TransportOutcome.resp s hd c cm b :: o2out :: rest)
          rnds url opt a ra pd).2).get? 1 =
        some ⟨rv loc url, m, bo, hds, 0, a, ra + 1⟩) ∧
    (resolveURLModel "/path" "https://h/a/b" = "https://h/path" ∧
      resolveURLModel "./sibling" "https://h/a/b" = "https://h/a/sibling" ∧
      resolveURLModel "../parent" "https://h/a/b/c" = "https://h/a/parent") := by
  refine ⟨?_, ?_, rfl, rfl, rfl⟩
  · intro p rv s hd c cm b rest rnds url opt a ra pd hs hb
    exact performM_terminal (performStep_redirect_exhausted hs hb)
  · intro p rv s hd c cm b loc o2out rest rnds url opt a ra pd hs hb hloc
    have hsplit : s ∈ WEIRD_REDIRECT_CODES ∨ (s = 307 ∨ s = 308) := by
      simp only [REDIRECT_CODES, List.mem_append, List.mem_cons, List.not_mem_nil,
        or_false] at hs
      tauto
    have hl : (hd.get "Location").getD "undefined" = loc := by rw [hloc]; rfl
    rcases hsplit with hw | hstd
    · refine ⟨"GET", none, (weirdRewrite opt).headers, ?_⟩
      rw [← hl]
      exact performM_second_call (performStep_weird_follow hw hb)
    · refine ⟨opt.method, opt.body, opt.headers, ?_⟩
      rw [← hl]
      exact performM_second_call (performStep_std_follow hstd hb)


/-- Witness for C5 at concrete inputs: a 302 with the budget exhausted
(`maxRedirects = 0`) settles as a RedirectError after one call; a 302 below
budget goes to the resolved Location target with the redirect counter at 1. -/
theorem claim5_redirect_budget_and_resolution_witness :
    performM (fun _ => none) resolveURLModel
      [TransportOutcome.resp 302 (HeaderMap.empty.set "Location" "/loc") none true ""]
      [] "https://h/a" { defaultOpt with maxRedirects := 0 } 1 0 0 =
      (Result.redirectError "too many redirects" (HeaderMap.empty.set "Location" "/loc"),
        [⟨"https://h/a", "GET", none, HeaderMap.empty, 0, 1, 0⟩]) ∧
    (∃ m bo hds, ((performM (fun _ => none) resolveURLModel
        [TransportOutcome.resp 302 (HeaderMap.empty.set "Location" "/loc") none true "",
         TransportOutcome.resp 204 HeaderMap.empty none true ""]
        [] "https://h/a" defaultOpt 1 0 0).2).get? 1 =
      some ⟨resolveURLModel "/loc" "https://h/a", m, bo, hds, 0, 1, 1⟩) :=
  ⟨claim5_redirect_budget_and_resolution.1 (fun _ => none) resolveURLModel 302
      (HeaderMap.empty.set "Location" "/loc") none true "" [] [] "https://h/a"
      { defaultOpt with maxRedirects := 0 } 1 0 0 (by decide) (by decide),
    claim5_redirect_budget_and_resolution.2.1 (fun _ => none) resolveURLModel 302
      (HeaderMap.empty.set "Location" "/loc") none true "" "/loc"
      (TransportOutcome.resp 204 HeaderMap.empty none true "") [] [] "https://h/a"
      defaultOpt 1 0 0 (by decide) (by decide) rfl⟩

/-- C3: a retried 429's delay comes from `retryDelay429`: with a
`Retry-After` header parsing to a positive integer `n` it is exactly
`min(n*1000, retryAfterMax)` milliseconds; with the header absent, or not
parsing, or non-positive, it is the computed `expBackoff` value; the retry
transport call in the trace waits exactly that delay; and with
`Retry-After: 1` under the default `retryAfterMax` the delay is 1000 ≥ 1000. -/
theorem claim3_retry_after_delay :
    (∀ (hd : HeaderMap) (opt : Opt) (a : ℕ) (rnds : List (ℚ × ℚ)) (s : String) (n : ℤ),
      hd.get "Retry-After" = some s → parseIntJS s = some n → 0 < n →
      (retryDelay429 hd opt a rnds).1 = min ((n : ℚ) * 1000) opt.retryAfterMax) ∧
    (∀ (hd : HeaderMap) (opt : Opt) (a : ℕ) (rnds : List (ℚ × ℚ)),
      hd.get "Retry-After" = none →
      (retryDelay429 hd opt a rnds).1 =
        expBackoff opt.retryDelayStep opt.retryDelayMax opt.retryDelayJitter a 2
          (rnds.headD (0, 0)).1 (rnds.headD (0, 0)).2) ∧
    (∀ (hd : HeaderMap) (opt : Opt) (a : ℕ) (rnds : List (ℚ × ℚ)) (s : String),
      hd.get "Retry-After" = some s → parseIntJS s = none →
      (retryDelay429 hd opt a rnds).1 =
        expBackoff opt.retryDelayStep opt.retryDelayMax opt.retryDelayJitter a 2
          (rnds.headD (0, 0)).1 (rnds.headD (0, 0)).2) ∧
    (∀ (hd : HeaderMap) (opt : Opt) (a : ℕ) (rnds : List (ℚ × ℚ)) (s : String) (n : ℤ),
      hd.get "Retry-After" = some s → parseIntJS s = some n → n ≤ 0 →
      (retryDelay429 hd opt a rnds).1 =
        expBackoff opt.retryDelayStep opt.retryDelayMax opt.retryDelayJitter a 2
          (rnds.headD (0, 0)).1 (rnds.headD (0, 0)).2) ∧
    (∀ (p : String → Option Json) (rv : String → String → String)
      (hd : HeaderMap) (c : Option (List String)) (b : String)
      (o2out : TransportOutcome) (rest : List TransportOutcome) (rnds : List (ℚ × ℚ))
      (url : String) (opt : Opt) (a ra : ℕ) (pd : ℚ),
      a < opt.maxAttempts →
      ((performM p rv (TransportOutcome.resp 429 hd c true b :: o2out :: rest)
          rnds url opt a ra pd).2).get? 1 =
        some ⟨url, opt.method, opt.body, opt.headers,
          (retryDelay429 hd opt a rnds).1, a + 1, ra⟩) ∧
    (∀ (hd : HeaderMap) (a : ℕ) (rnds : List (ℚ × ℚ)),
      hd.get "Retry-After" = some "1" →
      (retryDelay429 hd defaultOpt a rnds).1 = 1000 ∧ ((1000 : ℚ) ≥ 1000)) := by
  refine ⟨?_, ?_, ?_, ?_, ?_, ?_⟩
  · intro hd opt a rnds s n h1 h2 h3
    rw [retryDelay429, h1]
    simp only [h2, if_pos h3, jsMin_eq]
  · intro hd opt a rnds h1
    rw [retryDelay429, h1]
  · intro hd opt a rnds s h1
    intro h2
    rw [retryDelay429, h1]
    simp only [h2]
  · intro hd opt a rnds s n h1 h2 h3
    rw [retryDelay429, h1]
    simp only [h2, if_neg (not_lt.mpr h3)]
  · intro p rv hd c b o2out rest rnds url opt a ra pd h
    exact performM_second_call (performStep_429_retry h)
  · intro hd a rnds h1
    refine ⟨?_, le_refl (1000 : ℚ)⟩
    rw [retryDelay429, h1]
    have hp : parseIntJS "1" = some 1 := rfl
    simp only [hp, if_pos Int.one_pos]
    show jsMin ((1 : ℤ) * 1000 : ℚ) defaultOpt.retryAfterMax = 1000
    rw [jsMin_eq]
    show min (((1 : ℤ) : ℚ) * 1000) (30000 : ℚ) = 1000
    norm_num


/-- Witness for C3 at concrete inputs. -/
theorem claim3_retry_after_delay_witness :
    (retryDelay429 (HeaderMap.empty.set "Retry-After" "2") defaultOpt 1 []).1 =
      min (((2 : ℤ) : ℚ) * 1000) defaultOpt.retryAfterMax ∧
    ((retryDelay429 (HeaderMap.empty.set "Retry-After" "1") defaultOpt 1 []).1 = 1000 ∧
      ((1000 : ℚ) ≥ 1000)) :=
  ⟨claim3_retry_after_delay.1 (HeaderMap.empty.set "Retry-After" "2") defaultOpt 1 [] "2" 2
      rfl rfl (by norm_num),
    claim3_retry_after_delay.2.2.2.2.2 (HeaderMap.empty.set "Retry-After" "1") 1 [] rfl⟩

/-! ## Backoff calculator facts (C2) -/

theorem backoffSlots_expand (step high exp : ℚ) (attempts : ℕ) :
    backoffSlots step high exp attempts = ⌈min (high / step) (exp ^ attempts)⌉ := by
  rw [backoffSlots, jsCeil_eq, jsMin_eq, jsDiv_eq]

theorem maxBackoff_slots (step high exp : ℚ) (attempts : ℕ) :
    maxBackoff step high exp attempts =
      min ((backoffSlots step high exp attempts : ℚ) * step) high := by
  rw [maxBackoff, jsMin_eq]

/-- C2 counterexample: at `step = 300`, `cap = 1000`, `jitter = 0`,
`attempt = 2`, with the valid random slot choice `r1 = 3/4`, the computed
delay is the cap 1000, which is not a multiple of the step 300 — so the
delay is not a member of `{step, 2·step, 3·step, …}`. -/
theorem claim2_counterexample :
    ((0 : ℚ) ≤ 3 / 4 ∧ (3 / 4 : ℚ) < 1) ∧
    expBackoff 300 1000 0 2 2 (3 / 4) 0 = 1000 ∧
    ¬ ∃ k : ℕ, expBackoff 300 1000 0 2 2 (3 / 4) 0 = (k : ℚ) * 300 := by
  have hmin : min ((1000 : ℚ) / 300) ((2 : ℚ) ^ (2 : ℕ)) = 10 / 3 := by
    rw [min_eq_left (by norm_num : (1000 : ℚ) / 300 ≤ (2 : ℚ) ^ (2 : ℕ))]
    norm_num
  have hceil : (⌈min ((1000 : ℚ) / 300) ((2 : ℚ) ^ (2 : ℕ))⌉ : ℤ) = 4 := by
    rw [hmin, Int.ceil_eq_iff]
    norm_num
  have heval : expBackoff 300 1000 0 2 2 (3 / 4) 0 = 1000 := by
    rw [expBackoff_expand, hceil]
    have hfl : (⌊((4 : ℤ) : ℚ) * (3 / 4)⌋ : ℤ) = 3 := by
      rw [show ((4 : ℤ) : ℚ) * (3 / 4) = ((3 : ℤ) : ℚ) by norm_num, Int.floor_intCast]
    rw [hfl]
    rw [show (0 : ℚ) * 0 * 2 = 0 by ring, Int.floor_zero]
    norm_num [min_def, max_def]
  refine ⟨⟨by norm_num, by norm_num⟩, heval, ?_⟩
  rintro ⟨k, hk⟩
  rw [heval] at hk
  have h10 : (10 : ℚ) = (k : ℚ) * 3 := by linarith
  have h10z : (10 : ℤ) = (k : ℤ) * 3 := by exact_mod_cast h10
  omega

/-- C2 (amended): with `jitter = 0` every backoff delay equals
`min(k·step, cap)` for some slot `k ∈ [1, slots]` — a positive multiple of
`step` or, when that multiple overshoots, exactly the cap; the delay is
positive and at most the cap; it never exceeds the maximum achievable delay
`min(slots·step, cap)`; that maximum is nondecreasing in the attempt
number; and it is achieved by a valid random slot choice. -/
theorem claim2_amended (step high exp : ℚ) (a b : ℕ) (r1 r2 : ℚ)
    (hstep : 0 < step) (hhigh : 0 < high) (hexp : 1 ≤ exp)
    (hr1a : 0 ≤ r1) (hr1b : r1 < 1) (hab : a ≤ b) :
    (∃ k : ℤ, 1 ≤ k ∧ k ≤ backoffSlots step high exp a ∧
      expBackoff step high 0 a exp r1 r2 = min ((k : ℚ) * step) high) ∧
    0 < expBackoff step high 0 a exp r1 r2 ∧
    expBackoff step high 0 a exp r1 r2 ≤ high ∧
    expBackoff step high 0 a exp r1 r2 ≤ maxBackoff step high exp a ∧
    maxBackoff step high exp a ≤ maxBackoff step high exp b ∧
    (∃ r : ℚ, 0 ≤ r ∧ r < 1 ∧
      expBackoff step high 0 a exp r r2 = maxBackoff step high exp a) := by
  have hexp0 : (0 : ℚ) < exp := lt_of_lt_of_le zero_lt_one hexp
  have hminpos : ∀ n : ℕ, (0 : ℚ) < min (high / step) (exp ^ n) := fun n =>
    lt_min (div_pos hhigh hstep) (pow_pos hexp0 n)
  have hS1 : ∀ n : ℕ, 1 ≤ backoffSlots step high exp n := by
    intro n
    rw [backoffSlots_expand]
    have := Int.ceil_pos.mpr (hminpos n)
    omega
  have hSQ : ∀ n : ℕ, (1 : ℚ) ≤ (backoffSlots step high exp n : ℚ) := fun n => by
    exact_mod_cast hS1 n
  -- the delay with jitter 0 is min(selected·step, cap)
  have heval : ∀ r : ℚ, 0 ≤ r → r < 1 →
      expBackoff step high 0 a exp r r2 =
        min (((1 + ⌊(backoffSlots step high exp a : ℚ) * r⌋ : ℤ) : ℚ) * step) high := by
    intro r hr0 hr1
    rw [expBackoff_expand, ← backoffSlots_expand]
    rw [show r2 * 0 * 2 = (0 : ℚ) by ring, Int.floor_zero]
    have hsel1 : (1 : ℤ) ≤ 1 + ⌊(backoffSlots step high exp a : ℚ) * r⌋ := by
      have : (0 : ℤ) ≤ ⌊(backoffSlots step high exp a : ℚ) * r⌋ :=
        Int.floor_nonneg.mpr (mul_nonneg (le_trans zero_le_one (hSQ a)) hr0)
      omega
    have hpos : (0 : ℚ) <
        ((1 + ⌊(backoffSlots step high exp a : ℚ) * r⌋ : ℤ) : ℚ) * step := by
      apply mul_pos _ hstep
      exact_mod_cast hsel1
    rw [Int.cast_zero, add_zero, sub_zero]
    exact max_eq_right (le_of_lt (lt_min hpos hhigh))
  have hselub : ∀ r : ℚ, 0 ≤ r → r < 1 →
      1 + ⌊(backoffSlots step high exp a : ℚ) * r⌋ ≤ backoffSlots step high exp a := by
    intro r hr0 hr1
    have hcast : (0 : ℚ) < (backoffSlots step high exp a : ℚ) :=
      lt_of_lt_of_le zero_lt_one (hSQ a)
    have hlt : (backoffSlots step high exp a : ℚ) * r <
        (backoffSlots step high exp a : ℚ) := by
      calc (backoffSlots step high exp a : ℚ) * r
          < (backoffSlots step high exp a : ℚ) * 1 :=
            mul_lt_mul_of_pos_left hr1 hcast
        _ = (backoffSlots step high exp a : ℚ) := mul_one _
    have := Int.floor_lt.mpr hlt
    omega
  have hslots_mono : backoffSlots step high exp a ≤ backoffSlots step high exp b := by
    rw [backoffSlots_expand, backoffSlots_expand]
    exact Int.ceil_le_ceil (min_le_min le_rfl (pow_le_pow_right₀ hexp hab))
  refine ⟨?_, ?_, ?_, ?_, ?_, ?_⟩
  · refine ⟨1 + ⌊(backoffSlots step high exp a : ℚ) * r1⌋, ?_, hselub r1 hr1a hr1b,
      heval r1 hr1a hr1b⟩
    have : (0 : ℤ) ≤ ⌊(backoffSlots step high exp a : ℚ) * r1⌋ :=
      Int.floor_nonneg.mpr (mul_nonneg (le_trans zero_le_one (hSQ a)) hr1a)
    omega
  · rw [heval r1 hr1a hr1b]
    have hsel1 : (1 : ℤ) ≤ 1 + ⌊(backoffSlots step high exp a : ℚ) * r1⌋ := by
      have : (0 : ℤ) ≤ ⌊(backoffSlots step high exp a : ℚ) * r1⌋ :=
        Int.floor_nonneg.mpr (mul_nonneg (le_trans zero_le_one (hSQ a)) hr1a)
      omega
    exact lt_min (mul_pos (by exact_mod_cast hsel1) hstep) hhigh
  · rw [heval r1 hr1a hr1b]
    exact min_le_right _ _
  · rw [heval r1 hr1a hr1b, maxBackoff_slots]
    refine min_le_min ?_ le_rfl
    apply mul_le_mul_of_nonneg_right _ hstep.le
    exact_mod_cast hselub r1 hr1a hr1b
  · rw [maxBackoff_slots, maxBackoff_slots]
    refine min_le_min ?_ le_rfl
    apply mul_le_mul_of_nonneg_right _ hstep.le
    exact_mod_cast hslots_mono
  · have hcast : (0 : ℚ) < (backoffSlots step high exp a : ℚ) :=
      lt_of_lt_of_le zero_lt_one (hSQ a)
    refine ⟨((backoffSlots step high exp a : ℚ) - 1) / (backoffSlots step high exp a : ℚ),
      div_nonneg (by linarith [hSQ a]) hcast.le,
      (div_lt_one hcast).mpr (by linarith), ?_⟩
    rw [heval _ (div_nonneg (by linarith [hSQ a]) hcast.le) ((div_lt_one hcast).mpr (by linarith)),
      maxBackoff_slots]
    congr 2
    have hmul : (backoffSlots step high exp a : ℚ) *
        (((backoffSlots step high exp a : ℚ) - 1) / (backoffSlots step high exp a : ℚ)) =
        (backoffSlots step high exp a : ℚ) - 1 := by
      field_simp
    rw [hmul, show ((backoffSlots step high exp a : ℚ) - 1) =
        ((backoffSlots step high exp a - 1 : ℤ) : ℚ) by push_cast; ring,
      Int.floor_intCast]
    push_cast
    ring

/-- Witness for the amended C2 at a concrete input. -/
theorem claim2_amended_witness :
    (∃ k : ℤ, 1 ≤ k ∧ k ≤ backoffSlots 100 500 2 1 ∧
      expBackoff 100 500 0 1 2 0 0 = min ((k : ℚ) * 100) 500) ∧
    0 < expBackoff 100 500 0 1 2 0 0 ∧
    expBackoff 100 500 0 1 2 0 0 ≤ 500 ∧
    expBackoff 100 500 0 1 2 0 0 ≤ maxBackoff 100 500 2 1 ∧
    maxBackoff 100 500 2 1 ≤ maxBackoff 100 500 2 2 ∧
    (∃ r : ℚ, 0 ≤ r ∧ r < 1 ∧ expBackoff 100 500 0 1 2 r 0 = maxBackoff 100 500 2 1) :=
  claim2_amended 100 500 2 1 2 0 0 (by norm_num) (by norm_num) (by norm_num)
    (by norm_num) (by norm_num) (by norm_num)


/-! ## Attempt counter facts (C8) -/

theorem performStep_again_inv {p : String → Option Json} {r : String → String → String}
    {o : TransportOutcome} {rnds : List (ℚ × ℚ)} {url : String} {opt : Opt} {a ra : ℕ}
    {rn : List (ℚ × ℚ)} {u : String} {o2 : Opt} {a2 ra2 : ℕ} {d : ℚ}
    (h : performStep p r o rnds url opt a ra = StepRes.again rn u o2 a2 ra2 d)
    (hnr : noReset o) :
    o2.maxAttempts = opt.maxAttempts ∧ (a2 = a ∨ (a2 = a + 1 ∧ a < opt.maxAttempts)) := by
  cases o with
  | netErr reused code m =>
    simp only [performStep] at h
    split_ifs at h with hc
    exact absurd hc hnr
  | resp s hd c cm b =>
    by_cases h204 : s = 204
    · subst h204
      rw [performStep_204] at h
      cases h
    · by_cases hred : s ∈ REDIRECT_CODES
      · by_cases hb : opt.maxRedirects ≤ ra
        · rw [performStep_redirect_exhausted hred hb] at h
          cases h
        · have hb2 := not_le.mp hb
          have hsplit : s ∈ WEIRD_REDIRECT_CODES ∨ (s = 307 ∨ s = 308) := by
            simp only [REDIRECT_CODES, List.mem_append, List.mem_cons,
              List.not_mem_nil, or_false] at hred
            tauto
          rcases hsplit with hw | hstd
          · rw [performStep_weird_follow hw hb2] at h
            cases h
            exact ⟨rfl, Or.inl rfl⟩
          · rw [performStep_std_follow hstd hb2] at h
            cases h
            exact ⟨rfl, Or.inl rfl⟩
      · simp only [performStep] at h
        have hw : s ∉ WEIRD_REDIRECT_CODES := fun hmem =>
          hred (by simp only [REDIRECT_CODES, List.mem_append]; exact Or.inl hmem)
        rw [if_neg h204, if_neg hw, if_neg hred] at h
        split_ifs at h with hcm h429
        cases h
        exact ⟨rfl, Or.inr ⟨rfl, h429.2⟩⟩

/-- The executor's attempt counter stays within `maxAttempts` as long as no
reused-socket connection reset occurs. -/
theorem performM_attempts_bound {p : String → Option Json} {r : String → String → String} :
    ∀ (outs : List TransportOutcome) (rnds : List (ℚ × ℚ)) (url : String) (opt : Opt)
      (a ra : ℕ) (pd : ℚ),
      a ≤ opt.maxAttempts → (∀ o ∈ outs, noReset o) →
      ∀ call ∈ (performM p r outs rnds url opt a ra pd).2,
        call.attempts ≤ opt.maxAttempts := by
  intro outs
  induction outs with
  | nil =>
    intro rnds url opt a ra pd ha hnr call hc
    rw [performM_nil] at hc
    cases hc
  | cons o rest ih =>
    intro rnds url opt a ra pd ha hnr call hc
    cases hstep : performStep p r o rnds url opt a ra with
    | terminal t =>
      rw [performM_terminal hstep] at hc
      rcases List.mem_singleton.mp hc with rfl
      exact ha
    | again rn u o2 a2 ra2 d =>
      rw [performM_again hstep] at hc
      rcases List.mem_cons.mp hc with rfl | hmem
      · exact ha
      · obtain ⟨hmx, hcase⟩ := performStep_again_inv hstep (hnr o (List.mem_cons_self o rest))
        have ha2 : a2 ≤ o2.maxAttempts := by
          rw [hmx]
          rcases hcase with rfl | ⟨rfl, hlt⟩
          · exact ha
          · omega
        have hrec := ih rn u o2 a2 ra2 d ha2
          (fun x hx => hnr x (List.mem_cons_of_mem o hx)) call hmem
        rwa [hmx] at hrec

/-- C8 (amended): the attempts counter only increments on retry-eligible
outcomes — a 429 retried while `attempts < maxAttempts`, or a reused-socket
ECONNRESET — and, provided no reused-socket reset occurs, it never exceeds
`maxAttempts`; a reused-socket reset retries without any bound check, so
resets can push the counter past `maxAttempts` (see the counterexample). -/
theorem claim8_amended :
    (∀ (p : String → Option Json) (rv : String → String → String)
      (outs : List TransportOutcome) (rnds : List (ℚ × ℚ)) (url : String) (opt : Opt),
      1 ≤ opt.maxAttempts → (∀ o ∈ outs, noReset o) →
      ∀ call ∈ (requestRun p rv outs rnds url opt).2,
        call.attempts ≤ opt.maxAttempts) ∧
    (∀ (p : String → Option Json) (rv : String → String → String)
      (o : TransportOutcome) (rnds : List (ℚ × ℚ)) (url : String) (opt : Opt)
      (a ra : ℕ) (rn : List (ℚ × ℚ)) (u : String) (o2 : Opt) (a2 ra2 : ℕ) (d : ℚ),
      performStep p rv o rnds url opt a ra = StepRes.again rn u o2 a2 ra2 d →
      a2 = a ∨ (a2 = a + 1 ∧
        ((∃ hd c b, o = TransportOutcome.resp 429 hd c true b ∧ a < opt.maxAttempts) ∨
          (∃ m, o = TransportOutcome.netErr true (some "ECONNRESET") m)))) := by
  constructor
  · intro p rv outs rnds url opt h1 hnr call hc
    exact performM_attempts_bound outs rnds url opt 1 0 0 h1 hnr call hc
  · intro p rv o rnds url opt a ra rn u o2 a2 ra2 d h
    cases o with
    | netErr reused code m =>
      simp only [performStep] at h
      split_ifs at h with hc
      cases h
      exact Or.inr ⟨rfl, Or.inr ⟨m, by rw [hc.1, hc.2]⟩⟩
    | resp s hd c cm b =>
      by_cases h204 : s = 204
      · subst h204
        rw [performStep_204] at h
        cases h
      · by_cases hred : s ∈ REDIRECT_CODES
        · by_cases hb : opt.maxRedirects ≤ ra
          · rw [performStep_redirect_exhausted hred hb] at h
            cases h
          · have hb2 : ra < opt.maxRedirects := not_le.mp hb
            have hsplit : s ∈ WEIRD_REDIRECT_CODES ∨ (s = 307 ∨ s = 308) := by
              simp only [REDIRECT_CODES, List.mem_append, List.mem_cons,
                List.not_mem_nil, or_false] at hred
              tauto
            rcases hsplit with hw | hstd
            · rw [performStep_weird_follow hw hb2] at h
              cases h
              exact Or.inl rfl
            · rw [performStep_std_follow hstd hb2] at h
              cases h
              exact Or.inl rfl
        · simp only [performStep] at h
          have hw : s ∉ WEIRD_REDIRECT_CODES := fun hmem =>
            hred (by simp only [REDIRECT_CODES, List.mem_append]; exact Or.inl hmem)
          rw [if_neg h204, if_neg hw, if_neg hred] at h
          split_ifs at h with hcm h429
          cases h
          have hcmt : cm = true := by
            revert hcm
            cases cm <;> simp
          exact Or.inr ⟨rfl, Or.inl ⟨hd, c, b, by rw [h429.1, hcmt], h429.2⟩⟩

/-- Witness for the amended C8 at a concrete input (two 429 responses,
`maxAttempts = 2`: both calls stay within the bound). -/
theorem claim8_amended_witness :
    ∀ call ∈ (requestRun (fun _ => none) (fun l _ => l)
        [TransportOutcome.resp 429 HeaderMap.empty none true "",
         TransportOutcome.resp 429 HeaderMap.empty none true ""] [] "http://x"
        defaultOpt).2,
      call.attempts ≤ defaultOpt.maxAttempts :=
  claim8_amended.1 (fun _ => none) (fun l _ => l)
    [TransportOutcome.resp 429 HeaderMap.empty none true "",
     TransportOutcome.resp 429 HeaderMap.empty none true ""] [] "http://x" defaultOpt
    (by decide) (by
      intro o ho
      fin_cases ho <;> trivial)

/-- C8 counterexample: with `maxAttempts = 1` and two reused-socket
ECONNRESETs followed by a 429, the executor issues calls with attempts
1, 2 and 3 — the counter exceeds `maxAttempts`. -/
theorem claim8_counterexample :
    (({ defaultOpt with maxAttempts := 1 } : Opt).maxAttempts = 1) ∧
    ((requestRun (fun _ => none) (fun l _ => l)
        [TransportOutcome.netErr true (some "ECONNRESET") "reset",
         TransportOutcome.netErr true (some "ECONNRESET") "reset",
         TransportOutcome.resp 429 HeaderMap.empty none true ""] [] "http://x"
        { defaultOpt with maxAttempts := 1 }).2).map Call.attempts = [1, 2, 3] ∧
    ¬ (∀ call ∈ (requestRun (fun _ => none) (fun l _ => l)
        [TransportOutcome.netErr true (some "ECONNRESET") "reset",
         TransportOutcome.netErr true (some "ECONNRESET") "reset",
         TransportOutcome.resp 429 HeaderMap.empty none true ""] [] "http://x"
        { defaultOpt with maxAttempts := 1 }).2,
      call.attempts ≤ ({ defaultOpt with maxAttempts := 1 } : Opt).maxAttempts) := by
  have hmap : ((requestRun (fun _ => none) (fun l _ => l)
      [TransportOutcome.netErr true (some "ECONNRESET") "reset",
       TransportOutcome.netErr true (some "ECONNRESET") "reset",
       TransportOutcome.resp 429 HeaderMap.empty none true ""] [] "http://x"
      { defaultOpt with maxAttempts := 1 }).2).map Call.attempts = [1, 2, 3] := rfl
  refine ⟨rfl, hmap, ?_⟩
  intro hall
  have h3mem : (3 : ℕ) ∈ ((requestRun (fun _ => none) (fun l _ => l)
      [TransportOutcome.netErr true (some "ECONNRESET") "reset",
       TransportOutcome.netErr true (some "ECONNRESET") "reset",
       TransportOutcome.resp 429 HeaderMap.empty none true ""] [] "http://x"
      { defaultOpt with maxAttempts := 1 }).2).map Call.attempts := by
    rw [hmap]
    simp
  obtain ⟨call, hcmem, hc3⟩ := List.mem_map.mp h3mem
  have := hall call hcmem
  rw [hc3] at this
  exact absurd this (by decide)


/-! ## Refresh idempotence (C6) -/

theorem pRun_refresh_le (cfg : PCfg) :
    ∀ (fuel : ℕ) (ph : Phase) (s : PState) (outs : List POut) (routs : List RefOut),
      ((pRun cfg fuel ph s outs routs).2).refreshCount ≤ refreshPotential ph s := by
  intro fuel
  induction fuel with
  | zero =>
    intro ph s outs routs
    cases ph <;> simp [pRun, refreshPotential]
  | succ fuel ih =>
    intro ph s outs routs
    cases ph with
    | retry =>
      rw [pRun]
      by_cases hc : ({ s with attempts := s.attempts + 1 } : PState).canRefresh = true ∧
          ({ s with attempts := s.attempts + 1 } : PState).authHeader = none
      · rw [if_pos hc]
        have hcr : s.canRefresh = true := hc.1
        cases routs with
        | nil => simp [refreshPotential, hcr]
        | cons rr rrest =>
          refine le_trans (ih _ _ _ _) ?_
          simp [refreshPotential, hcr]
      · rw [if_neg hc]
        cases outs with
        | nil =>
          show s.refreshCount ≤ refreshPotential Phase.retry s
          simp only [refreshPotential]
          split <;> omega
        | cons o orest =>
          refine le_trans (ih _ _ _ _) ?_
          simp only [refreshPotential]
          split <;> omega
    | next err =>
      cases err with
      | none =>
        simp only [pRun, refreshPotential]
        split <;> omega
      | some e =>
        simp only [pRun]
        by_cases h401 : e.statusCode = some 401 ∧ s.canRefresh = true
        · rw [if_pos h401]
          have hcr : s.canRefresh = true := h401.2
          cases routs with
          | nil => simp [refreshPotential, hcr]
          | cons rr rrest =>
            refine le_trans (ih _ _ _ _) ?_
            simp [refreshPotential, hcr]
        · rw [if_neg h401]
          by_cases hretry : p2Retryable e s.attempts cfg.total
          · rw [if_pos hretry]
            exact ih Phase.retry s outs routs
          · rw [if_neg hretry]
            simp only [refreshPotential]
            show s.refreshCount ≤ s.refreshCount + if s.canRefresh = true then 1 else 0
            split <;> omega
    | onRefresh err =>
      cases err with
      | some e =>
        simp only [pRun]
        refine le_trans (ih _ _ _ _) ?_
        simp [refreshPotential]
      | none =>
        simp only [pRun]
        refine le_trans (ih _ _ _ _) ?_
        simp [refreshPotential]

/-- C6: the refresh collaborator runs at most once per logical request
(regardless of transport/refresh outcomes and fuel); and in the concrete
401 → refresh → replay → 401 scenario, exactly one refresh happens, the
replay carries the re-derived Authorization header (`toHeader` call 1), and
the second 401 settles as a normal terminal error. -/
theorem claim6_refresh_at_most_once :
    (∀ (cfg : PCfg) (hasAuth hasRefresh : Bool) (fuel : ℕ)
      (outs : List POut) (routs : List RefOut),
      ((pRequest cfg hasAuth hasRefresh fuel outs routs).2).refreshCount ≤ 1) ∧
    (pRequest ⟨5, fun n => some (String.append "tok" (Nat.repr n))⟩ true true 10
        [POut.err ⟨some 401, none⟩, POut.err ⟨some 401, none⟩] [RefOut.ok] =
      (PFinal.settled (some ⟨some 401, none⟩),
        { canRefresh := false
          authHeader := some "tok1"
          attempts := 2
          authCalls := 2
          refreshCount := 1
          performTrace := [(1, some "tok0"), (2, some "tok1")] })) := by
  constructor
  · intro cfg hasAuth hasRefresh fuel outs routs
    have h := pRun_refresh_le cfg fuel Phase.retry (pInit cfg hasAuth hasRefresh) outs routs
    have hpot : refreshPotential Phase.retry (pInit cfg hasAuth hasRefresh) ≤ 1 := by
      simp only [refreshPotential, pInit]
      split <;> omega
    exact le_trans h hpot
  · rfl


/-- C7: post-cancellation dispatch.  In part_002, once `abort()` has set
`isAborted`, a late `next(err, res)` or `onRefresh(err)` does nothing — no
settlement, no retry, no refresh — for every possible outcome.  In
lib/index.js, `next` only guards the retry branch with `!isAborted`: with
`isAborted = true` and `isDone = false`, a late transport error (such as the
ECONNRESET the aborted request emits) still reaches `done(err)` — the
callback fires after cancellation, contradicting the guarantee. -/
theorem claim7_cancel_suppression :
    (∀ (canRefresh : Bool) (attempts total : ℕ) (err : Option PErr),
      p2Next true canRefresh attempts total err = NextAction.ignore) ∧
    (∀ (err : Option PErr), p2OnRefresh true err = NextAction.ignore) ∧
    idxNext true false 0 10 (some ⟨none, some "ECONNRESET"⟩) =
      NextAction.settle (some ⟨none, some "ECONNRESET"⟩) ∧
    idxNext true false 0 10 (some ⟨some 500, none⟩) =
      NextAction.settle (some ⟨some 500, none⟩) := by
  refine ⟨fun canRefresh attempts total err => rfl, fun err => rfl, rfl, rfl⟩

end Honeybee
